import Mathlib

/-!
Verification development for the quantized-parameter lifecycle of
`bitsandbytes/nn/modules.py` (8-bit and 4-bit linear layers).

The Python source is shallowly embedded: each method becomes a pure Lean
function over explicit records.  Mutation of an object becomes returning an
updated record; Python exceptions become `Except String`; the external
numeric kernels (`double_quant`, `quantize_4bit`, `bnb.matmul`,
`bnb.matmul_4bit`, `undo_layout`) and the torch runtime serialization are
collaborators, passed in as function parameters so that theorems hold for
every kernel satisfying the stated hypotheses.
-/

namespace Bnb

/-- Device of a tensor's storage.  Only the `type` of a torch device is ever
inspected by the source (`device.type == "cuda"` / `"cpu"`), so the index is
dropped. -/
inductive DeviceType where
  | cpu
  | cuda
deriving DecidableEq, Repr

/-- The dtypes the source distinguishes. -/
inductive Dtype where
  | f32
  | f16
  | bf16
  | i8
  | other
deriving DecidableEq, Repr

/-- Shallow tensor model: an allocation identity (`id`, used to express
"in place, no reallocation"), the carried values, device and dtype, and a
transposition flag (for `.t()`).  Numeric content is abstract (`List Int`);
the quantization kernels that produce/consume values are external
collaborators. -/
structure Tensor where
  id : Nat
  values : List Int
  device : DeviceType
  dtype : Dtype
  transposed : Bool := false
deriving DecidableEq, Repr

namespace Tensor

/-- `t.to(d)` for a concrete device: torch returns the tensor itself when the
device already matches, otherwise a fresh allocation on the new device. -/
def toDevice (t : Tensor) (d : DeviceType) : Tensor :=
  if t.device = d then t else { t with device := d, id := t.id + 1 }

/-- `t.to(device)` where the parsed device may be `None` (no move requested). -/
def toDeviceOpt (t : Tensor) (d : Option DeviceType) : Tensor :=
  match d with
  | none => t
  | some dd => t.toDevice dd

/-- `t.to(dtype)` where the parsed dtype may be `None` (no cast requested).
A cast allocates; a no-op cast returns the tensor itself. -/
def toDtypeOpt (t : Tensor) (d : Option Dtype) : Tensor :=
  match d with
  | none => t
  | some dd => if t.dtype = dd then t else { t with dtype := dd, id := t.id + 1 }

/-- `t.to(dt)` with a mandatory dtype (e.g. `bias.data.to(x.dtype)`). -/
def toDtype (t : Tensor) (dd : Dtype) : Tensor :=
  if t.dtype = dd then t else { t with dtype := dd, id := t.id + 1 }

/-- `t.half()`, i.e. `t.to(torch.float16)`. -/
def half (t : Tensor) : Tensor :=
  t.toDtype .f16

/-- `t.contiguous()`.  Tensors in this model are always contiguous (memory
layout is out of scope), so this is the identity, as torch's `contiguous` is
on an already-contiguous tensor. -/
def contiguous (t : Tensor) : Tensor := t

/-- `t.clone()`: a fresh allocation carrying the same values. -/
def clone (t : Tensor) : Tensor :=
  { t with id := t.id + 1 }

/-- `t.detach()`: autograd is out of scope, so detaching preserves the value. -/
def detach (t : Tensor) : Tensor := t

/-- `dst.copy_(src)`: in-place value copy; identity, device and dtype of the
destination are preserved (torch casts the source into the destination). -/
def copy_ (dst src : Tensor) : Tensor :=
  { dst with values := src.values }

/-- `t.t()`: transpose. -/
def t (x : Tensor) : Tensor :=
  { x with transposed := !x.transposed }

end Tensor

/-- Output of the external `bnb.functional.double_quant` kernel
(`CB, CBt, SCB, SCBt, coo_tensorB`).  The source immediately deletes `CBt`
and `SCBt`; they are still modelled so the collaborator's shape matches. -/
structure DQOut where
  CB : Tensor
  CBt : Tensor
  SCB : Tensor
  SCBt : Tensor
  coo : Option Tensor
deriving DecidableEq, Repr

/-- `Int8Params` as observed through attribute lookup by a single instance.
`CB`/`SCB` are class attributes that are only ever (re)set to `None` by
`__new__` and shadowed by instance attributes (`cuda`, `init_8bit_state`,
`to`), so the value observed through `self.CB` is faithfully a per-record
`Option Tensor` field for single-instance reasoning; the class/instance
split itself is modelled separately for the aliasing claim. -/
structure Int8Params where
  data : Tensor
  requires_grad : Bool
  has_fp16_weights : Bool
  CB : Option Tensor
  SCB : Option Tensor
deriving DecidableEq, Repr

namespace Int8Params

/-- `Int8Params.__new__`: fresh parameter; the class attributes `CB`/`SCB`
are set to `None`, so the observed fields start empty. -/
def new (data : Tensor) (requires_grad has_fp16_weights : Bool) : Int8Params :=
  { data := data, requires_grad := requires_grad,
    has_fp16_weights := has_fp16_weights, CB := none, SCB := none }

/-- `Int8Params.cuda(device)`: with fp16 weights, a plain device move;
otherwise quantize via the external `double_quant` kernel, store the
row-major int8 buffer as `data` and set the `CB`/`SCB` attributes. -/
def cuda (dq : Tensor → DQOut) (p : Int8Params) : Int8Params :=
  if p.has_fp16_weights then
    { p with data := p.data.toDevice .cuda }
  else
    let B := (p.data.contiguous.half).toDevice .cuda
    let q := dq B
    { p with data := q.CB, CB := some q.CB, SCB := some q.SCB }

/-- `Int8Params.to(*args)` after `torch._C._nn._parse_to`: if the target is a
cuda device and the data currently lives on cpu, delegate to `cuda`;
otherwise build a new `Int8Params` from the generic `super().to` move and
copy the `CB`/`SCB` references onto it. -/
def to_ (dq : Tensor → DQOut) (p : Int8Params) (dev : Option DeviceType)
    (dt : Option Dtype) : Int8Params :=
  if dev = some .cuda ∧ p.data.device = .cpu then
    p.cuda dq
  else
    { data := (p.data.toDeviceOpt dev).toDtypeOpt dt,
      requires_grad := p.requires_grad,
      has_fp16_weights := p.has_fp16_weights,
      CB := p.CB, SCB := p.SCB }

end Int8Params

/-- A Python value as stored inside a 4-bit `quant_state` list.  Per the
source's own comment in `Params4bit.to`:
`state = [qabsmax, input_shape, A.dtype, blocksize, [offset, state2], quant_type]`,
`state2 = [absmax, input_shape, A.dtype, blocksize, None, quant_type]` —
a heterogeneous Python list mixing tensors, shapes, dtypes, ints, strings,
`None` and nested lists. -/
inductive PyVal where
  | tensor (t : Tensor)
  | shape (dims : List Nat)
  | dtypeV (d : Dtype)
  | natV (n : Nat)
  | strV (s : String)
  | noneV
  | listV (xs : List PyVal)

namespace PyVal

/-- Python `v.to(device)` with a possibly-`None` parsed device: defined only
on tensors; any other value has no `to` attribute and raises. -/
def toDev (v : PyVal) (d : Option DeviceType) : Except String PyVal :=
  match v with
  | tensor t => .ok (tensor (t.toDeviceOpt d))
  | _ => .error "AttributeError: object has no attribute to"

/-- Python list indexing `xs[i]` with negative-index wraparound. -/
def pyIdx (xs : List PyVal) (i : Int) : Except String PyVal :=
  let j : Int := if i < 0 then (xs.length : Int) + i else i
  if h : 0 ≤ j ∧ j.toNat < xs.length then
    .ok (xs.get ⟨j.toNat, h.2⟩)
  else
    .error "IndexError: list index out of range"

/-- Python list item assignment `xs[i] = v`. -/
def pySet (xs : List PyVal) (i : Int) (v : PyVal) : Except String (List PyVal) :=
  let j : Int := if i < 0 then (xs.length : Int) + i else i
  if 0 ≤ j ∧ j.toNat < xs.length then
    .ok (xs.set j.toNat v)
  else
    .error "IndexError: list assignment index out of range"

/-- `v[i]` on a Python value: only lists are subscriptable here. -/
def getitem (v : PyVal) (i : Int) : Except String PyVal :=
  match v with
  | listV xs => pyIdx xs i
  | _ => .error "TypeError: object is not subscriptable"

/-- `v[i] = w` on a Python value. -/
def setitem (v : PyVal) (i : Int) (w : PyVal) : Except String PyVal :=
  match v with
  | listV xs => (pySet xs i w).map listV
  | _ => .error "TypeError: object does not support item assignment"

end PyVal

/-- `Params4bit`: a tensor subclass carrying the 4-bit quantization
configuration and the optional `quant_state` list. -/
structure Params4bit where
  data : Tensor
  requires_grad : Bool
  blocksize : Nat
  compress_statistics : Bool
  quant_type : String
  quant_state : Option (List PyVal)

namespace Params4bit

/-- `Params4bit.__new__`. -/
def new (data : Tensor) (requires_grad : Bool) (quant_state : Option (List PyVal))
    (blocksize : Nat) (compress_statistics : Bool) (quant_type : String) : Params4bit :=
  { data := data, requires_grad := requires_grad, blocksize := blocksize,
    compress_statistics := compress_statistics, quant_type := quant_type,
    quant_state := quant_state }

/-- `Params4bit.cuda(device)`: quantize the (contiguous, half-precision,
cuda-resident) weight through the external `quantize_4bit` kernel and store
the 4-bit buffer plus its quantization state. -/
def cuda (q4 : Tensor → Nat → Bool → String → Tensor × List PyVal)
    (p : Params4bit) : Params4bit :=
  let w := (p.data.contiguous.half).toDevice .cuda
  let r := q4 w p.blocksize p.compress_statistics p.quant_type
  { p with data := r.1, quant_state := some r.2 }

/-- The in-place device rehoming of `quant_state` performed by the else
branch of `Params4bit.to`: `s[0] = s[0].to(device)` and, when statistics are
compressed, `s[-2][0]`, `s[-2][1][0]` and `s[-2][1][1]` are each `.to`-ed —
the index pattern the source labels "for 8-bit", applied to the 4-bit state
(the corrected 4-bit lines sit commented out above it with a TODO). -/
def rehomeState (s : List PyVal) (compress : Bool) (dev : Option DeviceType) :
    Except String (List PyVal) := do
  let v0 ← PyVal.pyIdx s 0
  let v0' ← v0.toDev dev
  let s1 ← PyVal.pySet s 0 v0'
  if compress then
    -- s[-2][0] = s[-2][0].to(device)  (offset)
    let a ← PyVal.pyIdx s1 (-2)
    let a0 ← a.getitem 0
    let a0' ← a0.toDev dev
    let a' ← a.setitem 0 a0'
    let s2 ← PyVal.pySet s1 (-2) a'
    -- s[-2][1][0] = s[-2][1][0].to(device)
    let b ← PyVal.pyIdx s2 (-2)
    let b1 ← b.getitem 1
    let b10 ← b1.getitem 0
    let b10' ← b10.toDev dev
    let b1' ← b1.setitem 0 b10'
    let b' ← b.setitem 1 b1'
    let s3 ← PyVal.pySet s2 (-2) b'
    -- s[-2][1][1] = s[-2][1][1].to(device)
    let c ← PyVal.pyIdx s3 (-2)
    let c1 ← c.getitem 1
    let c11 ← c1.getitem 1
    let c11' ← c11.toDev dev
    let c1' ← c1.setitem 1 c11'
    let c' ← c.setitem 1 c1'
    let s4 ← PyVal.pySet s3 (-2) c'
    pure s4
  else
    pure s1

/-- `Params4bit.to(*args)` after `_parse_to`: cuda target with cpu data
delegates to `cuda`; otherwise the quantization state (if any) is rehomed to
the target device and a new `Params4bit` wrapping the generic `super().to`
move is returned. -/
def to_ (q4 : Tensor → Nat → Bool → String → Tensor × List PyVal)
    (p : Params4bit) (dev : Option DeviceType) (dt : Option Dtype) :
    Except String Params4bit := do
  if dev = some .cuda ∧ p.data.device = .cpu then
    return p.cuda q4
  else
    let qs' ← match p.quant_state with
      | none => pure none
      | some s => do
          let s' ← rehomeState s p.compress_statistics dev
          pure (some s')
    return { data := (p.data.toDeviceOpt dev).toDtypeOpt dt,
             requires_grad := p.requires_grad,
             blocksize := p.blocksize,
             compress_statistics := p.compress_statistics,
             quant_type := p.quant_type,
             quant_state := qs' }

end Params4bit

/-- `Linear4bit`: a linear layer owning a `Params4bit` weight, an optional
bias and an optional compute-dtype override. -/
structure Linear4bit where
  weight : Params4bit
  bias : Option Tensor
  compute_dtype : Option Dtype

namespace Linear4bit

/-- The message printed by `Linear4bit.forward` when `quant_state` is absent. -/
def fp4WarnMsg : String :=
  "FP4 quantization state not initialized. Please call .cuda() or .to(device) on the LinearFP4 layer first."

/-- `Linear4bit.forward(x)`: cast the bias in place to the input dtype, warn
(via stdout, modelled as a warning list) when `quant_state` is missing but
still dispatch to the external `matmul_4bit` kernel, casting the input to
the compute dtype and the output back to the input dtype.  Returns the
updated layer (bias cast is a side effect), the warnings, and the output. -/
def forward (mm4 : Tensor → Tensor → Option Tensor → Option (List PyVal) → Tensor)
    (l : Linear4bit) (x : Tensor) : Linear4bit × List String × Tensor :=
  let l1 : Linear4bit :=
    match l.bias with
    | some b => if b.dtype ≠ x.dtype then { l with bias := some (b.toDtype x.dtype) } else l
    | none => l
  let warns : List String :=
    if l1.weight.quant_state.isNone then [fp4WarnMsg] else []
  let inp_dtype := x.dtype
  let x' := match l1.compute_dtype with
    | none => x
    | some cd => x.toDtype cd
  let bias' : Option Tensor := l1.bias.map (fun b => b.toDtypeOpt l1.compute_dtype)
  let out := mm4 x' l1.weight.data.t bias' l1.weight.quant_state
  (l1, warns, out.toDtype inp_dtype)

end Linear4bit

/-- `bnb.MatmulLtState`: the per-layer 8-bit matmul state.  All fields
default as in the bitsandbytes class body; `del state.CB` makes the read
fall back to the class-level `None`, so removal is modelled as `none`. -/
structure MatmulLtState where
  threshold : Rat := 0
  has_fp16_weights : Bool := true
  memory_efficient_backward : Bool := false
  use_pool : Bool := false
  is_training : Bool := true
  CB : Option Tensor := none
  SCB : Option Tensor := none
  CxB : Option Tensor := none
  tile_indices : Option Tensor := none
deriving DecidableEq, Repr

/-- `Linear8bitLt`: 8-bit linear layer with its weight parameter, optional
bias, matmul state and module training flag. -/
structure Linear8bitLt where
  weight : Int8Params
  bias : Option Tensor
  state : MatmulLtState
  index : Option Nat
  training : Bool
deriving DecidableEq, Repr

namespace Linear8bitLt

/-- `Linear8bitLt.__init__`: build the layer from a freshly initialized
full-precision weight tensor. -/
def init (weightData : Tensor) (bias : Option Tensor) (has_fp16_weights : Bool)
    (threshold : Rat) (index : Option Nat) : Linear8bitLt :=
  { weight := Int8Params.new weightData has_fp16_weights has_fp16_weights,
    bias := bias,
    state := { threshold := threshold,
               has_fp16_weights := has_fp16_weights,
               memory_efficient_backward := false,
               use_pool := threshold > 0 ∧ ¬has_fp16_weights },
    index := index,
    training := true }

/-- `Linear8bitLt.init_8bit_state`: hand the quantized buffer and its scale
statistics over from the parameter to the layer state, clearing the
parameter's slots. -/
def init8bitState (l : Linear8bitLt) : Linear8bitLt :=
  { l with
    state := { l.state with CB := l.weight.CB, SCB := l.weight.SCB },
    weight := { l.weight with CB := none, SCB := none } }

/-- The pre-dispatch phase of `Linear8bitLt.forward(x)`: mirror the training
flag, run the lazy `init_8bit_state` hand-off exactly when the parameter
still holds a quantized buffer, and cast the bias in place to the input
dtype. -/
def forwardPre (l : Linear8bitLt) (x : Tensor) : Linear8bitLt :=
  let l1 := { l with state := { l.state with is_training := l.training } }
  let l2 := if l1.weight.CB ≠ none then init8bitState l1 else l1
  match l2.bias with
  | some b => if b.dtype ≠ x.dtype then { l2 with bias := some (b.toDtype x.dtype) } else l2
  | none => l2

/-- `Linear8bitLt.forward(x)`: run the pre-dispatch phase, dispatch to the
external fused matmul kernel (which returns the output and the updated
matmul state), and — when not keeping fp16 weights and the kernel has
produced a layout-transformed buffer `CxB` while the row-major `CB` is still
present — retire `CB` and adopt `CxB` as the weight's data. -/
def forward (matmul : Tensor → Int8Params → Option Tensor → MatmulLtState → Tensor × MatmulLtState)
    (l : Linear8bitLt) (x : Tensor) : Linear8bitLt × Tensor :=
  let lp := forwardPre l x
  let r := matmul x lp.weight lp.bias lp.state
  let out := r.1
  let l3 : Linear8bitLt := { lp with state := r.2 }
  let l4 : Linear8bitLt :=
    if l3.state.has_fp16_weights then l3
    else
      match l3.state.CB, l3.state.CxB with
      | some _, some cxb =>
          { l3 with state := { l3.state with CB := none },
                    weight := { l3.weight with data := cxb } }
      | _, _ => l3
  (l4, out)

end Linear8bitLt

/-- Python dict assignment `destination[key] = v` on an insertion-ordered
dict modelled as an association list: overwrite in place, else append. -/
def destSet : List (String × Tensor) → String → Tensor → List (String × Tensor)
  | [], k, v => [(k, v)]
  | (k', v') :: rest, k, v =>
      if k' = k then (k, v) :: rest else (k', v') :: destSet rest k v

/-- `torch.nn.Linear._save_to_state_dict` (external collaborator): writes the
weight (and bias, when present) under the prefixed standard keys, detaching
unless `keep_vars`.  The `raises` flag injects a serialization failure so
the exception path of the adapter can be exercised. -/
def nnLinearSaveToStateDict (raises : Bool) (weightData : Tensor) (bias : Option Tensor)
    (dest : List (String × Tensor)) (pfx : String) (keep_vars : Bool) :
    Except String (List (String × Tensor)) :=
  if raises then .error "serialization failed"
  else
    let d1 := destSet dest (pfx ++ "weight") (if keep_vars then weightData else weightData.detach)
    match bias with
    | some b => .ok (destSet d1 (pfx ++ "bias") (if keep_vars then b else b.detach))
    | none => .ok d1

namespace Linear8bitLt

/-- The `try` body of `Linear8bitLt._save_to_state_dict`: the generic torch
save followed by serializing `SCB` under the side-channel key, reading the
parameter's `SCB` first (the `.cuda()`-was-called case) and, failing that,
the layer state's `SCB` when fp16 weights are off (the
`init_8bit_state`-was-called case). -/
def saveBody (raises : Bool) (l : Linear8bitLt) (dest : List (String × Tensor))
    (pfx : String) (keep_vars : Bool) : Except String (List (String × Tensor)) :=
  match nnLinearSaveToStateDict raises l.weight.data l.bias dest pfx keep_vars with
  | .error e => .error e
  | .ok d1 =>
      let key_name := pfx ++ "SCB"
      match l.weight.SCB with
      | some pw => .ok (destSet d1 key_name (if keep_vars then pw else pw.detach))
      | none =>
          match l.state.SCB with
          | some ps =>
              if l.state.has_fp16_weights then .ok d1
              else .ok (destSet d1 key_name (if keep_vars then ps else ps.detach))
          | none => .ok d1

/-- `Linear8bitLt._save_to_state_dict`: when the weight is past the layout
transform (`has_fp16_weights` off, `state.CB` gone, `state.CxB` present),
clone the live data, temporarily replace it by the row-major buffer
reconstructed through the external `undo_layout`, run the save body, and —
in a `finally` block, so on the exception path as well — restore the clone
as the parameter's data.  Returns the serialization result and the layer as
left behind. -/
def saveToStateDict (undoLayout : Tensor → Option Tensor → Tensor) (raises : Bool)
    (l : Linear8bitLt) (dest : List (String × Tensor)) (pfx : String) (keep_vars : Bool) :
    Except String (List (String × Tensor)) × Linear8bitLt :=
  if h : l.state.has_fp16_weights = false ∧ l.state.CB = none ∧ l.state.CxB.isSome then
    let weight_clone := l.weight.data.clone
    let l1 := { l with weight := { l.weight with
                  data := undoLayout (l.state.CxB.get h.2.2) l.state.tile_indices } }
    let res := saveBody raises l1 dest pfx keep_vars
    (res, { l1 with weight := { l1.weight with data := weight_clone } })
  else
    (saveBody raises l dest pfx keep_vars, l)

/-- The error raised when a quantized checkpoint is loaded into a layer
whose weight has no `SCB` slot allocated. -/
def loadErrMsg : String :=
  "Loading a quantized checkpoint into non-quantized Linear8bitLt is not supported. Please call module.cuda() before module.load_state_dict()"

/-- The explicit loop of `Linear8bitLt._load_from_state_dict` over the
(mutating) `unexpected_keys` list, rendered with the CPython iterator
cursor: index `i` advances by one per iteration while `remove` shrinks the
list, so the element sliding into the removed slot is skipped, exactly as in
Python.  A key whose suffix after the prefix is `SCB` is copied in place
into the weight's `SCB` slot (raising when that slot was never allocated)
and removed from the list. -/
def scbLoadLoop (sd : List (String × Tensor)) (pfx : String) :
    Int8Params → List String → Nat → Except String (Int8Params × List String)
  | w, keys, i =>
    if h : i < keys.length then
      let key := keys.get ⟨i, h⟩
      if key.drop pfx.length = "SCB" then
        match w.SCB with
        | none => .error loadErrMsg
        | some scb =>
            match sd.lookup key with
            | none => .error "KeyError"
            | some input_param =>
                scbLoadLoop sd pfx { w with SCB := some (scb.copy_ input_param) }
                  (keys.erase key) (i + 1)
      else
        scbLoadLoop sd pfx w keys (i + 1)
    else
      .ok (w, keys)
termination_by _ keys i => keys.length - i
decreasing_by
  · have hlen : (keys.erase (keys.get ⟨i, h⟩)).length = keys.length - 1 :=
      List.length_erase_of_mem (keys.get_mem i h)
    omega
  · omega

/-- `Linear8bitLt._load_from_state_dict`: the generic torch load (external
collaborator `superLoad`, returning the updated layer and the unexpected
keys it did not consume) followed by the side-channel `SCB` loop. -/
def loadFromStateDict
    (superLoad : Linear8bitLt → List (String × Tensor) → String → List String →
      Linear8bitLt × List String)
    (l : Linear8bitLt) (sd : List (String × Tensor)) (pfx : String)
    (uk : List String) : Except String (Linear8bitLt × List String) :=
  let r := superLoad l sd pfx uk
  match scbLoadLoop sd pfx r.1.weight r.2 0 with
  | .error e => .error e
  | .ok (w', uk2) => .ok ({ r.1 with weight := w' }, uk2)

end Linear8bitLt

/-!
Class/instance attribute model for `Int8Params`.  `Int8Params.__new__`
assigns `cls.has_fp16_weights`, `cls.CB` and `cls.SCB` — attributes of the
class object, shared by every instance — while `cuda` uses `setattr` on the
instance.  Python attribute lookup reads the instance dictionary first and
falls back to the class object, so an instance "observes" a class-level
value until it shadows the name.
-/

/-- The mutable attribute state of the `Int8Params` class object. -/
structure Int8ClassAttrs where
  has_fp16_weights : Bool
  CB : Option Tensor
  SCB : Option Tensor
deriving DecidableEq, Repr

/-- One `Int8Params` instance: its tensor payload plus its instance
attribute dictionary (`none` = name not present, lookup falls back to the
class object). -/
structure Int8Instance where
  data : Tensor
  requires_grad : Bool
  iCB : Option (Option Tensor) := none
  iSCB : Option (Option Tensor) := none
  iHasFp16 : Option Bool := none
deriving DecidableEq, Repr

namespace Int8Instance

/-- Attribute lookup `self.CB`: instance dictionary first, class second. -/
def getCB (cls : Int8ClassAttrs) (p : Int8Instance) : Option Tensor :=
  p.iCB.getD cls.CB

/-- Attribute lookup `self.SCB`. -/
def getSCB (cls : Int8ClassAttrs) (p : Int8Instance) : Option Tensor :=
  p.iSCB.getD cls.SCB

/-- Attribute lookup `self.has_fp16_weights`. -/
def getHasFp16 (cls : Int8ClassAttrs) (p : Int8Instance) : Bool :=
  p.iHasFp16.getD cls.has_fp16_weights

end Int8Instance

/-- `Int8Params.__new__(cls, data, requires_grad, has_fp16_weights, CB, SCB)`:
mutates the class object (`cls.has_fp16_weights = has_fp16_weights`;
`cls.CB = None`; `cls.SCB = None`) and returns a fresh instance with an
empty attribute dictionary. -/
def int8ParamsNew (_cls : Int8ClassAttrs) (data : Tensor)
    (requires_grad has_fp16_weights : Bool) : Int8ClassAttrs × Int8Instance :=
  ({ has_fp16_weights := has_fp16_weights, CB := none, SCB := none },
   { data := data, requires_grad := requires_grad })

/-- `Int8Params.cuda(device)` in the attribute model: reads
`self.has_fp16_weights` through lookup; the quantizing branch stores the
int8 buffer and `setattr`s `CB`/`SCB` on the instance, shadowing the class
attributes. -/
def int8ParamsCuda (dq : Tensor → DQOut) (cls : Int8ClassAttrs)
    (p : Int8Instance) : Int8Instance :=
  if p.getHasFp16 cls then
    { p with data := p.data.toDevice .cuda }
  else
    let B := (p.data.contiguous.half).toDevice .cuda
    let q := dq B
    { p with data := q.CB, iCB := some (some q.CB), iSCB := some (some q.SCB) }

/-- Ownership exclusivity for one buffer/statistics slot pair: the value
lives on the parameter or on the layer state, never on both and never on
neither. -/
def slotExclusive (a b : Option Tensor) : Prop :=
  (a = none ∨ b = none) ∧ (a ≠ none ∨ b ≠ none)

/-!  Concrete fixtures used by witnesses and counterexamples.  -/

/-- A small full-precision weight tensor on the host. -/
def tW8 : Tensor := { id := 0, values := [1, 2, 3, 4], device := .cpu, dtype := .f32 }

/-- Row-major int8 buffer as produced by a concrete `double_quant` run. -/
def tCB8 : Tensor := { id := 10, values := [10, 20], device := .cuda, dtype := .i8 }

/-- Scale statistics as produced by a concrete `double_quant` run. -/
def tSCB8 : Tensor := { id := 11, values := [3], device := .cuda, dtype := .f32 }

/-- A concrete instance of the external `double_quant` collaborator. -/
def dqC : Tensor → DQOut :=
  fun _ => { CB := tCB8, CBt := { tCB8 with id := 12 }, SCB := tSCB8,
             SCBt := { tSCB8 with id := 13 }, coo := none }

/-- Packed 4-bit buffer as produced by a concrete `quantize_4bit` run. -/
def tQ4 : Tensor := { id := 20, values := [7], device := .cuda, dtype := .i8 }

/-- Top-level (quantized) absmax of a compressed 4-bit state. -/
def tQAbsmax : Tensor := { id := 21, values := [5], device := .cuda, dtype := .i8 }

/-- Offset of a compressed 4-bit state. -/
def tOffset : Tensor := { id := 22, values := [1], device := .cuda, dtype := .f32 }

/-- Nested absmax of a compressed 4-bit state. -/
def tAbsmax2 : Tensor := { id := 23, values := [9], device := .cuda, dtype := .f32 }

/-- A compressed 4-bit `quant_state` with the exact layout documented in the
source comment:
`[qabsmax, input_shape, A.dtype, blocksize, [offset, state2], quant_type]`
with `state2 = [absmax, input_shape, A.dtype, blocksize, None, quant_type]`. -/
def qs4Compressed : List PyVal :=
  [.tensor tQAbsmax, .shape [2, 2], .dtypeV .f16, .natV 64,
   .listV [.tensor tOffset,
           .listV [.tensor tAbsmax2, .shape [1], .dtypeV .f32, .natV 256, .noneV, .strV "fp4"]],
   .strV "fp4"]

/-- An uncompressed 4-bit `quant_state` (`compress_statistics=False`):
`[absmax, input_shape, A.dtype, blocksize, None, quant_type]`. -/
def qs4Plain : List PyVal :=
  [.tensor tQAbsmax, .shape [2, 2], .dtypeV .f16, .natV 64, .noneV, .strV "nf4"]

/-- A concrete `quantize_4bit` collaborator producing a compressed state. -/
def q4C : Tensor → Nat → Bool → String → Tensor × List PyVal :=
  fun _ _ _ _ => (tQ4, qs4Compressed)

/-- A concrete `quantize_4bit` collaborator producing an uncompressed state. -/
def q4U : Tensor → Nat → Bool → String → Tensor × List PyVal :=
  fun _ _ _ _ => (tQ4, qs4Plain)

/-- A never-quantized compressed-statistics 4-bit parameter on the host. -/
def p4c0 : Params4bit :=
  { data := { id := 30, values := [1, 2, 3, 4], device := .cpu, dtype := .f32 },
    requires_grad := false, blocksize := 64, compress_statistics := true,
    quant_type := "fp4", quant_state := none }

/-- `p4c0` after one accelerator placement under `q4C` (the quantizing
`cuda` path stores the 4-bit buffer and the compressed state). -/
def p4c1 : Params4bit :=
  { p4c0 with data := tQ4, quant_state := some qs4Compressed }

/-- A never-quantized uncompressed-statistics 4-bit parameter on the host. -/
def p4u0 : Params4bit :=
  { data := { id := 31, values := [4, 3, 2, 1], device := .cpu, dtype := .f32 },
    requires_grad := false, blocksize := 64, compress_statistics := false,
    quant_type := "nf4", quant_state := none }

/-- `p4u0` after one accelerator placement under `q4U`. -/
def p4u1 : Params4bit :=
  { p4u0 with data := tQ4, quant_state := some qs4Plain }

/-- An already-quantized `Int8Params` whose storage has been moved back to
the host: `CB`/`SCB` are populated and `data` is the int8 buffer on cpu. -/
def p8qCpu : Int8Params :=
  { data := { id := 40, values := [10, 20], device := .cpu, dtype := .i8 },
    requires_grad := false, has_fp16_weights := false,
    CB := some { id := 41, values := [10, 20], device := .cpu, dtype := .i8 },
    SCB := some { id := 42, values := [3], device := .cpu, dtype := .f32 } }

/-- Layout-transformed (turing/ampere) buffer produced by the first
inference pass. -/
def tCxB : Tensor := { id := 60, values := [20, 10], device := .cuda, dtype := .i8 }

/-- Tile indices used by `undo_layout`. -/
def tTile : Tensor := { id := 61, values := [1, 0], device := .cuda, dtype := .other }

/-- A concrete instance of the external `undo_layout` collaborator. -/
def undoC : Tensor → Option Tensor → Tensor :=
  fun t _ => { t with id := t.id + 7 }

/-- Kernel output tensor for the concrete 8-bit matmul collaborator. -/
def tOut8 : Tensor := { id := 62, values := [5, 6], device := .cuda, dtype := .f16 }

/-- A concrete 8-bit fused matmul collaborator: returns `tOut8` and signals
the first-pass layout transform by setting `CxB` on the state. -/
def matmulC : Tensor → Int8Params → Option Tensor → MatmulLtState → Tensor × MatmulLtState :=
  fun _ _ _ st => (tOut8, { st with CxB := some tCxB })

/-- Kernel output tensor for the concrete 4-bit matmul collaborator. -/
def tOut4 : Tensor := { id := 63, values := [8], device := .cuda, dtype := .f16 }

/-- A concrete 4-bit fused matmul collaborator. -/
def mm4C : Tensor → Tensor → Option Tensor → Option (List PyVal) → Tensor :=
  fun _ _ _ _ => tOut4

/-- An input activation tensor. -/
def xIn : Tensor := { id := 64, values := [1, 1], device := .cuda, dtype := .f16 }

/-- An 8-bit layer right after the quantizing `cuda()` call: the parameter
holds the quantized buffer and statistics, the layer state holds none. -/
def l8PostQuant : Linear8bitLt :=
  { weight := { data := tCB8, requires_grad := false, has_fp16_weights := false,
                CB := some tCB8, SCB := some tSCB8 },
    bias := none,
    state := { threshold := 6, has_fp16_weights := false, use_pool := true },
    index := none,
    training := false }

/-- An 8-bit inference layer past the layout transform: `state.CB` retired,
`state.CxB` live and adopted as the weight's data, statistics on the state. -/
def l8PostForward : Linear8bitLt :=
  { weight := { data := tCxB, requires_grad := false, has_fp16_weights := false,
                CB := none, SCB := none },
    bias := none,
    state := { threshold := 6, has_fp16_weights := false, use_pool := true,
               SCB := some tSCB8, CxB := some tCxB, tile_indices := some tTile },
    index := none,
    training := false }

/-- A never-quantized 4-bit layer (no `place_on_device` yet). -/
def l4NoQuant : Linear4bit :=
  { weight := { data := { id := 70, values := [1, 2], device := .cpu, dtype := .f32 },
                requires_grad := false, blocksize := 64, compress_statistics := true,
                quant_type := "nf4", quant_state := none },
    bias := none,
    compute_dtype := none }

/-- The statistics slot already allocated on a quantized layer's weight
(before a checkpoint load overwrites its values). -/
def scbSlot : Tensor := { id := 50, values := [0], device := .cuda, dtype := .f32 }

/-- The statistics tensor carried by the loaded checkpoint. -/
def scbNew : Tensor := { id := 51, values := [4], device := .cpu, dtype := .f32 }

/-- Checkpoint contents: a single side-channel `SCB` entry under prefix `p.`. -/
def sdC : List (String × Tensor) := [("p.SCB", scbNew)]

/-- An 8-bit layer whose weight has an allocated `SCB` slot (quantized via
`cuda()`), receiving a checkpoint load. -/
def l8ForLoad : Linear8bitLt :=
  { weight := { data := tCB8, requires_grad := false, has_fp16_weights := false,
                CB := some tCB8, SCB := some scbSlot },
    bias := none,
    state := { threshold := 0, has_fp16_weights := false },
    index := none,
    training := false }

/-- A freshly constructed, never-quantized 8-bit layer (no `SCB` slot). -/
def l8Fresh : Linear8bitLt :=
  { weight := { data := tW8, requires_grad := false, has_fp16_weights := false,
                CB := none, SCB := none },
    bias := none,
    state := { threshold := 0, has_fp16_weights := false },
    index := none,
    training := true }

/-- A concrete generic-load collaborator: consumes nothing and reports the
side-channel key as unexpected. -/
def superLoadC : Linear8bitLt → List (String × Tensor) → String → List String →
    Linear8bitLt × List String :=
  fun l _ _ _ => (l, ["p.SCB"])

/-- A layer whose statistics live on the layer state while the state's
`has_fp16_weights` flag is set: reachable when the class-attribute aliasing
of `Int8Params` flips the flag between construction and quantization
(construct layer A with fp16 weights, construct layer B without, then
quantize and run A). -/
def l8Fp16StateSCB : Linear8bitLt :=
  { weight := { data := tCB8, requires_grad := true, has_fp16_weights := true,
                CB := none, SCB := none },
    bias := none,
    state := { threshold := 0, has_fp16_weights := true,
               CB := some tCB8, SCB := some tSCB8 },
    index := none,
    training := false }

/-- Initial attribute state of the `Int8Params` class object. -/
def cls0 : Int8ClassAttrs := { has_fp16_weights := false, CB := none, SCB := none }

/-- Payload tensor of the second constructed instance in the aliasing
scenario. -/
def tW8b : Tensor := { id := 1, values := [9, 8], device := .cpu, dtype := .f32 }

/-!  Helper lemmas (shared; not tied to a single claim).  -/

/-- Appending distinct suffixes to the same prefix yields distinct strings. -/
theorem string_append_ne {p a b : String} (h : a ≠ b) : p ++ a ≠ p ++ b := by
  intro he
  apply h
  have hd : (p ++ a).data = (p ++ b).data := congrArg String.data he
  simp only [String.data_append] at hd
  cases a
  cases b
  exact congrArg String.mk (List.append_cancel_left hd)

/-- Looking up the key just written by a Python dict assignment. -/
theorem lookup_destSet_self (d : List (String × Tensor)) (k : String) (v : Tensor) :
    (destSet d k v).lookup k = some v := by
  induction d with
  | nil => simp [destSet, List.lookup]
  | cons hd tl ih =>
      obtain ⟨a, b⟩ := hd
      by_cases h : a = k
      · subst h
        simp [destSet, List.lookup_cons]
      · have hb : (k == a) = false := beq_eq_false_iff_ne.mpr (Ne.symm h)
        simp [destSet, if_neg h, List.lookup_cons, hb, ih]

/-- A Python dict assignment leaves other keys' lookups unchanged. -/
theorem lookup_destSet_ne (d : List (String × Tensor)) {k k' : String} (v : Tensor)
    (h : k' ≠ k) : (destSet d k v).lookup k' = d.lookup k' := by
  induction d with
  | nil => simp [destSet, List.lookup, List.lookup_cons, beq_eq_false_iff_ne.mpr h]
  | cons hd tl ih =>
      obtain ⟨a, b⟩ := hd
      by_cases ha : a = k
      · subst ha
        simp [destSet, List.lookup_cons, beq_eq_false_iff_ne.mpr h]
      · by_cases hk' : a = k'
        · subst hk'
          simp [destSet, if_neg ha, List.lookup_cons]
        · have hb : (k' == a) = false := beq_eq_false_iff_ne.mpr (Ne.symm hk')
          simp [destSet, if_neg ha, List.lookup_cons, hb, ih]

/-- Python assignment at index `0` on a nonempty list replaces the head. -/
theorem pySet_zero_cons (x v : PyVal) (xs : List PyVal) :
    PyVal.pySet (x :: xs) 0 v = .ok (v :: xs) := by
  have h : (0 : Int) ≤ 0 ∧ (0 : Int).toNat < (x :: xs).length := by
    constructor
    · exact le_refl 0
    · simp
  simp [PyVal.pySet, h]

/-- Python indexing at `0` on a nonempty list returns the head. -/
theorem pyIdx_zero_cons (x : PyVal) (xs : List PyVal) :
    PyVal.pyIdx (x :: xs) 0 = .ok x := by
  have h : (0 : Int) ≤ 0 ∧ (0 : Int).toNat < (x :: xs).length := by
    constructor
    · exact le_refl 0
    · simp
  simp [PyVal.pyIdx, h]

/-- The single matching element of a filtered-to-singleton list, once
erased, leaves no matching element. -/
theorem filter_erase_singleton {P : String → Bool} :
    ∀ (l : List String) (a : String), P a = true → l.filter P = [a] →
      (l.erase a).filter P = []
  | [], a, _, hf => by simp at hf
  | x :: xs, a, hPa, hf => by
      by_cases hPx : P x = true
      · rw [List.filter_cons_of_pos hPx] at hf
        have hx : x = a := (List.cons_eq_cons.mp hf).1
        have hxs : xs.filter P = [] := (List.cons_eq_cons.mp hf).2
        subst hx
        rw [List.erase_cons_head]
        exact hxs
      · rw [List.filter_cons_of_neg (by simpa using hPx)] at hf
        have hxa : x ≠ a := by
          intro he
          exact hPx (he ▸ hPa)
        rw [List.erase_cons_tail (by simpa using hxa)]
        rw [List.filter_cons_of_neg (by simpa using hPx)]
        exact filter_erase_singleton xs a hPa hf

/-!  Claim C1.  -/

/-- C1: for an 8-bit layer whose parameter holds a live quantized buffer and
statistics (`weight.CB`, `weight.SCB` populated) and whose layer state holds
none, the `init_8bit_state` hand-off run by `forward` leaves the parameter's
slots empty and the layer-state slots holding exactly the values the
parameter held; ownership is exclusive — never both populated, never both
empty — at both observable program points (before and after the hand-off,
which executes atomically between them). -/
theorem c1_init8bitState_ownership_transfer (l : Linear8bitLt) (cb scb : Tensor)
    (hCB : l.weight.CB = some cb) (hSCB : l.weight.SCB = some scb)
    (hsCB : l.state.CB = none) (hsSCB : l.state.SCB = none) :
    (Linear8bitLt.init8bitState l).weight.CB = none ∧
    (Linear8bitLt.init8bitState l).weight.SCB = none ∧
    (Linear8bitLt.init8bitState l).state.CB = some cb ∧
    (Linear8bitLt.init8bitState l).state.SCB = some scb ∧
    slotExclusive l.weight.CB l.state.CB ∧
    slotExclusive l.weight.SCB l.state.SCB ∧
    slotExclusive (Linear8bitLt.init8bitState l).weight.CB
      (Linear8bitLt.init8bitState l).state.CB ∧
    slotExclusive (Linear8bitLt.init8bitState l).weight.SCB
      (Linear8bitLt.init8bitState l).state.SCB := by
  simp [Linear8bitLt.init8bitState, slotExclusive, hCB, hSCB, hsCB, hsSCB]

/-- Witness for C1 at the concrete post-quantization layer `l8PostQuant`. -/
theorem c1_witness :
    (Linear8bitLt.init8bitState l8PostQuant).weight.CB = none ∧
    (Linear8bitLt.init8bitState l8PostQuant).weight.SCB = none ∧
    (Linear8bitLt.init8bitState l8PostQuant).state.CB = some tCB8 ∧
    (Linear8bitLt.init8bitState l8PostQuant).state.SCB = some tSCB8 ∧
    slotExclusive l8PostQuant.weight.CB l8PostQuant.state.CB ∧
    slotExclusive l8PostQuant.weight.SCB l8PostQuant.state.SCB ∧
    slotExclusive (Linear8bitLt.init8bitState l8PostQuant).weight.CB
      (Linear8bitLt.init8bitState l8PostQuant).state.CB ∧
    slotExclusive (Linear8bitLt.init8bitState l8PostQuant).weight.SCB
      (Linear8bitLt.init8bitState l8PostQuant).state.SCB :=
  c1_init8bitState_ownership_transfer l8PostQuant tCB8 tSCB8 rfl rfl rfl rfl

/-!  Claim C8.  -/

/-- C8: on a forward call of an 8-bit layer where the kernel leaves the
post-dispatch state with fp16 weights off, the row-major buffer still
present (`CB`) and a layout-transformed buffer produced (`CxB`), `forward`
retires `CB` (removed from the state), adopts `CxB` as the weight's data,
and returns the kernel's output tensor. -/
theorem c8_forward_adopts_transformed_buffer
    (matmul : Tensor → Int8Params → Option Tensor → MatmulLtState → Tensor × MatmulLtState)
    (l : Linear8bitLt) (x out : Tensor) (st' : MatmulLtState) (cb cxb : Tensor)
    (hm : matmul x (Linear8bitLt.forwardPre l x).weight (Linear8bitLt.forwardPre l x).bias
            (Linear8bitLt.forwardPre l x).state = (out, st'))
    (hfp : st'.has_fp16_weights = false)
    (hCB : st'.CB = some cb) (hCxB : st'.CxB = some cxb) :
    (Linear8bitLt.forward matmul l x).2 = out ∧
    (Linear8bitLt.forward matmul l x).1.state.CB = none ∧
    (Linear8bitLt.forward matmul l x).1.state.CxB = some cxb ∧
    (Linear8bitLt.forward matmul l x).1.weight.data = cxb := by
  simp only [Linear8bitLt.forward]
  rw [hm]
  simp [hfp, hCB, hCxB]

/-- Witness for C8: the concrete kernel `matmulC` on the concrete
post-quantization layer `l8PostQuant`. -/
theorem c8_witness :
    (Linear8bitLt.forward matmulC l8PostQuant xIn).2 = tOut8 ∧
    (Linear8bitLt.forward matmulC l8PostQuant xIn).1.state.CB = none ∧
    (Linear8bitLt.forward matmulC l8PostQuant xIn).1.state.CxB = some tCxB ∧
    (Linear8bitLt.forward matmulC l8PostQuant xIn).1.weight.data = tCxB :=
  c8_forward_adopts_transformed_buffer matmulC l8PostQuant xIn tOut8
    { (Linear8bitLt.forwardPre l8PostQuant xIn).state with CxB := some tCxB }
    tCB8 tCxB rfl (by decide) (by decide) (by decide)

/-!  Claim C7.  -/

/-- C7: a 4-bit layer whose weight has no quantization statistics
(`quant_state` absent) emits the non-fatal user-visible warning from
`forward` and still dispatches to the 4-bit kernel — the output returned is
the kernel's result (cast back to the input dtype) with `quant_state = none`
passed through, and no error is raised by the missing-statistics check. -/
theorem c7_missing_statistics_warns_and_dispatches
    (mm4 : Tensor → Tensor → Option Tensor → Option (List PyVal) → Tensor)
    (l : Linear4bit) (x : Tensor)
    (hq : l.weight.quant_state = none) :
    (Linear4bit.forward mm4 l x).2.1 = [Linear4bit.fp4WarnMsg] ∧
    (∃ x' b', (Linear4bit.forward mm4 l x).2.2 =
        (mm4 x' l.weight.data.t b' none).toDtype x.dtype) := by
  constructor
  · cases hb : l.bias with
    | none => simp [Linear4bit.forward, hb, hq]
    | some b =>
        by_cases hd : b.dtype ≠ x.dtype
        · simp [Linear4bit.forward, hb, hd, hq]
        · simp [Linear4bit.forward, hb, hd, hq]
  · cases hb : l.bias with
    | none =>
        simp only [Linear4bit.forward, hb, hq]
        exact ⟨_, _, rfl⟩
    | some b =>
        by_cases hd : b.dtype ≠ x.dtype
        · simp only [Linear4bit.forward, hb, if_pos hd, hq]
          exact ⟨_, _, rfl⟩
        · simp only [Linear4bit.forward, hb, if_neg hd, hq]
          exact ⟨_, _, rfl⟩

/-- Witness for C7: the concrete never-quantized layer `l4NoQuant` under the
concrete kernel `mm4C`. -/
theorem c7_witness :
    (Linear4bit.forward mm4C l4NoQuant xIn).2.1 = [Linear4bit.fp4WarnMsg] ∧
    (∃ x' b', (Linear4bit.forward mm4C l4NoQuant xIn).2.2 =
        (mm4C x' l4NoQuant.weight.data.t b' none).toDtype xIn.dtype) :=
  c7_missing_statistics_warns_and_dispatches mm4C l4NoQuant xIn rfl

/-!  Claim C3.  -/

/-- A completing save body serializes the layer's current weight data under
the standard prefixed weight key (helper for C3 and C9). -/
theorem saveBody_false_map_weight (l : Linear8bitLt) (dest : List (String × Tensor))
    (pfx : String) (keep_vars : Bool) :
    (Linear8bitLt.saveBody false l dest pfx keep_vars).map
        (fun d => d.lookup (pfx ++ "weight"))
      = .ok (some (if keep_vars then l.weight.data else l.weight.data.detach)) := by
  have hw : pfx ++ "weight" ≠ pfx ++ "SCB" := string_append_ne (by decide)
  have hwb : pfx ++ "weight" ≠ pfx ++ "bias" := string_append_ne (by decide)
  cases hbias : l.bias <;> cases hscb : l.weight.SCB <;> cases hscb2 : l.state.SCB <;>
    cases hfp : l.state.has_fp16_weights <;>
      simp [Linear8bitLt.saveBody, nnLinearSaveToStateDict, Except.map, hbias, hscb, hscb2,
        hfp, lookup_destSet_ne _ _ hw, lookup_destSet_ne _ _ hwb, lookup_destSet_self]

/-- Unpacking a mapped `Except` known to be `ok` (helper). -/
theorem except_map_ok {α β : Type} {e : Except String α} {f : α → β} {b : β}
    (h : e.map f = .ok b) : ∃ a, e = .ok a ∧ f a = b := by
  cases e with
  | error err => simp [Except.map] at h
  | ok a =>
      refine ⟨a, rfl, ?_⟩
      simpa [Except.map] using h

/-- C3: for an 8-bit layer past the layout transform (`has_fp16_weights`
off, `state.CB` absent, `state.CxB` present), `_save_to_state_dict`
serializes the row-major buffer reconstructed by `undo_layout` under the
standard weight key, and the live parameter's data after the save holds the
same values as before the save — both when serialization completes and when
it raises (the restore happens in a `finally`). -/
theorem c3_save_reconstructs_and_restores
    (undoLayout : Tensor → Option Tensor → Tensor) (raises : Bool)
    (l : Linear8bitLt) (dest : List (String × Tensor)) (pfx : String)
    (keep_vars : Bool) (cxb : Tensor)
    (hfp : l.state.has_fp16_weights = false) (hCB : l.state.CB = none)
    (hCxB : l.state.CxB = some cxb) :
    ((Linear8bitLt.saveToStateDict undoLayout raises l dest pfx keep_vars).2.weight.data.values
        = l.weight.data.values) ∧
    (raises = true →
       (Linear8bitLt.saveToStateDict undoLayout raises l dest pfx keep_vars).1
         = .error "serialization failed") ∧
    (raises = false →
       ∃ d, (Linear8bitLt.saveToStateDict undoLayout raises l dest pfx keep_vars).1 = .ok d ∧
         d.lookup (pfx ++ "weight") = some (undoLayout cxb l.state.tile_indices)) := by
  have hcond : l.state.has_fp16_weights = false ∧ l.state.CB = none ∧ l.state.CxB.isSome := by
    exact ⟨hfp, hCB, by simp [hCxB]⟩
  have hget : l.state.CxB.get (by simp [hCxB]) = cxb := by
    simp [hCxB]
  refine ⟨?_, ?_, ?_⟩
  · simp [Linear8bitLt.saveToStateDict, dif_pos hcond, Tensor.clone]
  · intro hr
    subst hr
    simp [Linear8bitLt.saveToStateDict, dif_pos hcond, Linear8bitLt.saveBody,
      nnLinearSaveToStateDict]
  · intro hr
    subst hr
    simp only [Linear8bitLt.saveToStateDict, dif_pos hcond]
    obtain ⟨d, hd, hfd⟩ := except_map_ok (saveBody_false_map_weight
      { l with weight := { l.weight with
          data := undoLayout (l.state.CxB.get hcond.2.2) l.state.tile_indices } }
      dest pfx keep_vars)
    refine ⟨d, hd, ?_⟩
    rw [hfd]
    have hgeq : l.state.CxB.get hcond.2.2 = cxb := hget
    rw [hgeq]
    cases keep_vars <;> simp [Tensor.detach]

/-- Witness for C3 at the concrete post-layout-transform layer
`l8PostForward` under the concrete `undoC`. -/
theorem c3_witness :
    ((Linear8bitLt.saveToStateDict undoC false l8PostForward [] "p." true).2.weight.data.values
        = l8PostForward.weight.data.values) ∧
    (false = true →
       (Linear8bitLt.saveToStateDict undoC false l8PostForward [] "p." true).1
         = .error "serialization failed") ∧
    (false = false →
       ∃ d, (Linear8bitLt.saveToStateDict undoC false l8PostForward [] "p." true).1 = .ok d ∧
         d.lookup ("p." ++ "weight") = some (undoC tCxB l8PostForward.state.tile_indices)) :=
  c3_save_reconstructs_and_restores undoC false l8PostForward [] "p." true tCxB rfl rfl rfl

/-!  Claim C9.  -/

/-- C9 counterexample: a layer satisfying the claim's stated precondition —
exactly one of the two `SCB` slots populated (here the layer-state's) — on
which the save completes yet serializes no `SCB` side-channel entry at all,
because the fallback to the layer-state is additionally guarded by
`not state.has_fp16_weights` in the source.  (This layer state is reachable
through the class-attribute aliasing of `Int8Params`, cf. C10.) -/
theorem c9_counterexample :
    l8Fp16StateSCB.weight.SCB = none ∧
    l8Fp16StateSCB.state.SCB = some tSCB8 ∧
    slotExclusive l8Fp16StateSCB.weight.SCB l8Fp16StateSCB.state.SCB ∧
    (Linear8bitLt.saveToStateDict undoC false l8Fp16StateSCB [] "p." true).1 =
      .ok [("p." ++ "weight", tCB8)] ∧
    List.lookup ("p." ++ "SCB") [("p." ++ "weight", tCB8)] = none := by
  refine ⟨rfl, rfl, ⟨Or.inl rfl, Or.inr (by simp [l8Fp16StateSCB])⟩, rfl, rfl⟩

/-- A completing save body's entry under the side-channel `SCB` key:
the parameter's statistics first, else the layer state's when fp16 weights
are off, else whatever the destination already held (helper for C9). -/
theorem saveBody_false_map_scb (l' : Linear8bitLt) (dest : List (String × Tensor))
    (pfx : String) (keep_vars : Bool) :
    (Linear8bitLt.saveBody false l' dest pfx keep_vars).map
        (fun d => d.lookup (pfx ++ "SCB"))
      = .ok (match l'.weight.SCB with
             | some pw => some (if keep_vars then pw else pw.detach)
             | none =>
                 match l'.state.SCB, l'.state.has_fp16_weights with
                 | some ps, false => some (if keep_vars then ps else ps.detach)
                 | _, _ => dest.lookup (pfx ++ "SCB")) := by
  have h1 : pfx ++ "SCB" ≠ pfx ++ "weight" := string_append_ne (by decide)
  have h2 : pfx ++ "SCB" ≠ pfx ++ "bias" := string_append_ne (by decide)
  cases hbias : l'.bias <;> cases hscb : l'.weight.SCB <;> cases hscb2 : l'.state.SCB <;>
    cases hfp : l'.state.has_fp16_weights <;>
      simp [Linear8bitLt.saveBody, nnLinearSaveToStateDict, Except.map, hbias, hscb, hscb2,
        hfp, lookup_destSet_ne _ _ h1, lookup_destSet_ne _ _ h2, lookup_destSet_self]

/-- C9 as amended: the scale statistics are serialized under the fixed
side-channel key `prefix ++ "SCB"` whether they live on the parameter or on
the layer state, with the parameter consulted first — provided that, when
they live only on the layer state, the state's `has_fp16_weights` flag is
off (as it always is when the hand-off put them there in single-instance
use). -/
theorem c9_amended_scb_side_channel
    (undoLayout : Tensor → Option Tensor → Tensor) (l : Linear8bitLt)
    (dest : List (String × Tensor)) (pfx : String) (keep_vars : Bool)
    (hexcl : slotExclusive l.weight.SCB l.state.SCB)
    (hflag : l.weight.SCB = none → l.state.has_fp16_weights = false) :
    ∃ d, (Linear8bitLt.saveToStateDict undoLayout false l dest pfx keep_vars).1 = .ok d ∧
      ((∀ pw, l.weight.SCB = some pw →
          d.lookup (pfx ++ "SCB") = some (if keep_vars then pw else pw.detach)) ∧
       (∀ ps, l.weight.SCB = none → l.state.SCB = some ps →
          d.lookup (pfx ++ "SCB") = some (if keep_vars then ps else ps.detach))) := by
  have hscbBody : ∀ l' : Linear8bitLt, l'.weight.SCB = l.weight.SCB →
      l'.state.SCB = l.state.SCB → l'.state.has_fp16_weights = l.state.has_fp16_weights →
      ∃ d, Linear8bitLt.saveBody false l' dest pfx keep_vars = .ok d ∧
        ((∀ pw, l.weight.SCB = some pw →
            d.lookup (pfx ++ "SCB") = some (if keep_vars then pw else pw.detach)) ∧
         (∀ ps, l.weight.SCB = none → l.state.SCB = some ps →
            d.lookup (pfx ++ "SCB") = some (if keep_vars then ps else ps.detach))) := by
    intro l' hw hs hf
    obtain ⟨d, hd, hlook⟩ := except_map_ok (saveBody_false_map_scb l' dest pfx keep_vars)
    refine ⟨d, hd, ?_, ?_⟩
    · intro pw hpw
      rw [hw, hpw] at hlook
      simpa using hlook
    · intro ps hwnone hps
      have hfp : l.state.has_fp16_weights = false := hflag hwnone
      rw [hw, hwnone, hs, hps, hf, hfp] at hlook
      simpa using hlook
  by_cases hcond : l.state.has_fp16_weights = false ∧ l.state.CB = none ∧ l.state.CxB.isSome
  · simp only [Linear8bitLt.saveToStateDict, dif_pos hcond]
    exact hscbBody _ rfl rfl rfl
  · simp only [Linear8bitLt.saveToStateDict, dif_neg hcond]
    exact hscbBody _ rfl rfl rfl

/-- Witness for C9 (amended) at the concrete post-layout-transform layer,
whose statistics live on the layer state. -/
theorem c9_amended_witness :
    ∃ d, (Linear8bitLt.saveToStateDict undoC false l8PostForward [] "p." true).1 = .ok d ∧
      d.lookup ("p." ++ "SCB") = some tSCB8 := by
  obtain ⟨d, hd, _, hstate⟩ :=
    c9_amended_scb_side_channel undoC l8PostForward [] "p." true
      ⟨Or.inl rfl, Or.inr (by simp [l8PostForward])⟩ (fun _ => rfl)
  exact ⟨d, hd, by simpa using hstate tSCB8 rfl rfl⟩

/-!  Claim C4.  -/

/-- C4: evaluating the device re-homing path of `Params4bit.to` on an
already-quantized compressed-statistics 4-bit parameter (the `quant_state`
layout documented in the source's own comment) raises: the active code
indexes the nested state with the 8-bit layout, so `s[-2][1][1]` — the
nested blob's `input_shape`, not a tensor — is `.to`-ed, an attribute
error.  The top-level scale, nested offset and nested absmax are moved, but
the claimed "move every sub-field and return" never completes. -/
theorem c4_nested_statistics_transfer_crashes :
    Params4bit.to_ q4C p4c1 (some .cuda) none =
      .error "AttributeError: object has no attribute to" := rfl

/-!  Claim C5.  -/

/-- C5 counterexample: for a compressed-statistics 4-bit parameter the
second accelerator placement does not yield the state of the first — it
raises the nested-statistics attribute error (C4) instead of returning. -/
theorem c5_counterexample :
    Params4bit.to_ q4C p4c0 (some .cuda) none = .ok p4c1 ∧
    Params4bit.to_ q4C p4c1 (some .cuda) none =
      .error "AttributeError: object has no attribute to" ∧
    Params4bit.to_ q4C p4c1 (some .cuda) none ≠ Params4bit.to_ q4C p4c0 (some .cuda) none := by
  refine ⟨rfl, rfl, ?_⟩
  intro h
  exact Except.noConfusion
    (show (Except.error "AttributeError: object has no attribute to" :
        Except String Params4bit) = .ok p4c1 from h)

/-- C5 as amended: repeated accelerator placement is idempotent for 8-bit
parameters and for 4-bit parameters without compressed statistics — the
second call takes the generic-move branch, re-encodes nothing and returns
the same buffer, statistics and flags; for 4-bit parameters with compressed
statistics the second call instead fails with the C4 attribute error.
Hypotheses: the first placement starts from host storage and the external
quantization kernels place their outputs on the accelerator. -/
theorem c5_amended_placement_idempotent :
    (∀ (dq : Tensor → DQOut) (p : Int8Params),
       (∀ t, (dq t).CB.device = .cuda) →
       p.data.device = .cpu →
       Int8Params.to_ dq (Int8Params.to_ dq p (some .cuda) none) (some .cuda) none
         = Int8Params.to_ dq p (some .cuda) none) ∧
    (∀ (q4 : Tensor → Nat → Bool → String → Tensor × List PyVal) (p p1 : Params4bit),
       (∀ w bs cs qt, ((q4 w bs cs qt).1).device = .cuda) →
       (∀ w bs cs qt, ∃ t rest, (q4 w bs cs qt).2 = .tensor t :: rest ∧ t.device = .cuda) →
       p.compress_statistics = false →
       p.data.device = .cpu →
       Params4bit.to_ q4 p (some .cuda) none = .ok p1 →
       Params4bit.to_ q4 p1 (some .cuda) none = .ok p1) := by
  constructor
  · intro dq p hdq hcpu
    have h1 : Int8Params.to_ dq p (some .cuda) none = p.cuda dq := by
      simp [Int8Params.to_, hcpu]
    rw [h1]
    have key : ∀ q : Int8Params, q.data.device = .cuda →
        Int8Params.to_ dq q (some .cuda) none = q := by
      intro q hq
      have hne : ¬ q.data.device = .cpu := by
        rw [hq]
        intro hcontra
        cases hcontra
      simp [Int8Params.to_, hne, Tensor.toDeviceOpt, Tensor.toDevice, hq, Tensor.toDtypeOpt]
    apply key
    by_cases hfp : p.has_fp16_weights
    · simp [Int8Params.cuda, hfp, Tensor.toDevice, hcpu]
    · simp [Int8Params.cuda, hfp, hdq]
  · intro q4 p p1 hdev hidx hcs hcpu h1
    have hc : Params4bit.to_ q4 p (some .cuda) none = .ok (p.cuda q4) := by
      simp [Params4bit.to_, hcpu, pure, Except.pure]
    rw [hc] at h1
    cases h1
    obtain ⟨t, rest, hqs, htdev⟩ := hidx ((p.data.contiguous.half).toDevice .cuda)
      p.blocksize p.compress_statistics p.quant_type
    have hd : (p.cuda q4).data.device = .cuda :=
      hdev ((p.data.contiguous.half).toDevice .cuda) p.blocksize p.compress_statistics
        p.quant_type
    have hqs' : (p.cuda q4).quant_state = some (.tensor t :: rest) := by
      simp [Params4bit.cuda, hqs]
    have hrehome : Params4bit.rehomeState (.tensor t :: rest) (p.cuda q4).compress_statistics
        (some .cuda) = .ok (.tensor t :: rest) := by
      have hcs' : (p.cuda q4).compress_statistics = false := by
        simp [Params4bit.cuda, hcs]
      rw [hcs']
      simp [Params4bit.rehomeState, pyIdx_zero_cons, PyVal.toDev, Tensor.toDeviceOpt,
        Tensor.toDevice, htdev, pySet_zero_cons, bind, Except.bind, pure, Except.pure]
    have hne : ¬ (p.cuda q4).data.device = .cpu := by
      rw [hd]
      intro hcontra
      cases hcontra
    simp [Params4bit.to_, hne, hqs', hrehome, Tensor.toDeviceOpt, Tensor.toDevice, hd,
      Tensor.toDtypeOpt, bind, Except.bind, pure, Except.pure]
    rw [← hqs']

/-- Witness for C5 (amended): concrete double placements of an 8-bit
parameter under `dqC` and of an uncompressed 4-bit parameter under `q4U`. -/
theorem c5_amended_witness :
    Int8Params.to_ dqC (Int8Params.to_ dqC p8qCpu (some .cuda) none) (some .cuda) none
      = Int8Params.to_ dqC p8qCpu (some .cuda) none ∧
    Params4bit.to_ q4U p4u1 (some .cuda) none = .ok p4u1 := by
  constructor
  · exact c5_amended_placement_idempotent.1 dqC p8qCpu (fun _ => rfl) rfl
  · exact c5_amended_placement_idempotent.2 q4U p4u0 p4u1 (fun _ _ _ _ => rfl)
      (fun _ _ _ _ =>
        ⟨tQAbsmax, [.shape [2, 2], .dtypeV .f16, .natV 64, .noneV, .strV "nf4"], rfl, rfl⟩)
      rfl rfl rfl

/-!  Claim C6.  -/

/-- C6 counterexample: an already-quantized `Int8Params` whose storage sits
on the host (`p8qCpu`) is an invalid edge per the claim — placing it on the
accelerator should leave state unchanged and fail — yet `Int8Params.to`
completes and silently re-quantizes: buffer, `CB` and `SCB` all change. -/
theorem c6_counterexample :
    Int8Params.to_ dqC p8qCpu (some .cuda) none ≠ p8qCpu ∧
    (Int8Params.to_ dqC p8qCpu (some .cuda) none).CB ≠ p8qCpu.CB ∧
    (Int8Params.to_ dqC p8qCpu (some .cuda) none).SCB ≠ p8qCpu.SCB := by
  refine ⟨?_, ?_, ?_⟩ <;> decide

/-- C6 as amended: `place_on_device` performs no transition validation and
never fails with an `UnsupportedTransition` error — no such error exists in
the code.  Every cuda-target/host-storage combination takes the quantizing
`cuda` path (so an already-quantized parameter is silently re-encoded, the
invalid edge the claim expected to be rejected), and every other
combination falls through to the generic move, preserving `CB`, `SCB` and
the fp16 flag. -/
theorem c6_amended_no_transition_validation (dq : Tensor → DQOut) (p : Int8Params)
    (dev : Option DeviceType) (dt : Option Dtype) :
    (dev = some .cuda ∧ p.data.device = .cpu →
       Int8Params.to_ dq p dev dt = Int8Params.cuda dq p) ∧
    (¬(dev = some .cuda ∧ p.data.device = .cpu) →
       (Int8Params.to_ dq p dev dt).CB = p.CB ∧
       (Int8Params.to_ dq p dev dt).SCB = p.SCB ∧
       (Int8Params.to_ dq p dev dt).has_fp16_weights = p.has_fp16_weights) ∧
    (p.has_fp16_weights = false →
       (Int8Params.cuda dq p).data = (dq ((p.data.contiguous.half).toDevice .cuda)).CB ∧
       (Int8Params.cuda dq p).CB = some (dq ((p.data.contiguous.half).toDevice .cuda)).CB ∧
       (Int8Params.cuda dq p).SCB = some (dq ((p.data.contiguous.half).toDevice .cuda)).SCB) := by
  refine ⟨?_, ?_, ?_⟩
  · intro h
    simp [Int8Params.to_, h]
  · intro h
    simp [Int8Params.to_, if_neg h]
  · intro h
    simp [Int8Params.cuda, h]

/-- Witness for C6 (amended): the quantized-on-host parameter `p8qCpu` takes
the silently re-encoding path under `dqC`. -/
theorem c6_amended_witness :
    Int8Params.to_ dqC p8qCpu (some .cuda) none = Int8Params.cuda dqC p8qCpu ∧
    (Int8Params.cuda dqC p8qCpu).CB = some tCB8 :=
  ⟨(c6_amended_no_transition_validation dqC p8qCpu (some .cuda) none).1 ⟨rfl, rfl⟩,
   by
    have h := (c6_amended_no_transition_validation dqC p8qCpu (some .cuda) none).2.2 rfl
    exact h.2.1⟩

/-!  Claim C10.  -/

/-- C10: `Int8Params.__new__` writes `has_fp16_weights`, `CB` and `SCB` on
the class object, so constructing a second instance overwrites the
`has_fp16_weights` value observed by the first (and pins its observed
`CB`/`SCB` at `None`) whenever the first has not shadowed those names with
instance attributes; after the quantizing `cuda` path shadows `CB`/`SCB`
on the instance, those survive a second construction — but the unshadowed
`has_fp16_weights` still flips to the second constructor's value.
Per-parameter state is not isolated between instances. -/
theorem c10_class_attribute_aliasing (cls : Int8ClassAttrs) (d1 d2 : Tensor)
    (rg1 rg2 h1 h2 : Bool) (dq : Tensor → DQOut) (hq : h1 = false) :
    (Int8Instance.getHasFp16 (int8ParamsNew (int8ParamsNew cls d1 rg1 h1).1 d2 rg2 h2).1
        (int8ParamsNew cls d1 rg1 h1).2 = h2 ∧
     Int8Instance.getCB (int8ParamsNew (int8ParamsNew cls d1 rg1 h1).1 d2 rg2 h2).1
        (int8ParamsNew cls d1 rg1 h1).2 = none ∧
     Int8Instance.getSCB (int8ParamsNew (int8ParamsNew cls d1 rg1 h1).1 d2 rg2 h2).1
        (int8ParamsNew cls d1 rg1 h1).2 = none) ∧
    (Int8Instance.getCB (int8ParamsNew (int8ParamsNew cls d1 rg1 h1).1 d2 rg2 h2).1
        (int8ParamsCuda dq (int8ParamsNew cls d1 rg1 h1).1 (int8ParamsNew cls d1 rg1 h1).2)
       = some (dq (((int8ParamsNew cls d1 rg1 h1).2.data.contiguous.half).toDevice .cuda)).CB ∧
     Int8Instance.getSCB (int8ParamsNew (int8ParamsNew cls d1 rg1 h1).1 d2 rg2 h2).1
        (int8ParamsCuda dq (int8ParamsNew cls d1 rg1 h1).1 (int8ParamsNew cls d1 rg1 h1).2)
       = some (dq (((int8ParamsNew cls d1 rg1 h1).2.data.contiguous.half).toDevice .cuda)).SCB ∧
     Int8Instance.getHasFp16 (int8ParamsNew (int8ParamsNew cls d1 rg1 h1).1 d2 rg2 h2).1
        (int8ParamsCuda dq (int8ParamsNew cls d1 rg1 h1).1 (int8ParamsNew cls d1 rg1 h1).2)
       = h2) := by
  refine ⟨⟨rfl, rfl, rfl⟩, ?_, ?_, ?_⟩ <;>
    simp [int8ParamsNew, int8ParamsCuda, Int8Instance.getHasFp16, Int8Instance.getCB,
      Int8Instance.getSCB, hq]

/-- Witness for C10: two concrete constructions (`h1 = false`, `h2 = true`)
with a quantization of the first instance in between. -/
theorem c10_witness :
    (Int8Instance.getHasFp16 (int8ParamsNew (int8ParamsNew cls0 tW8 false false).1
        tW8b false true).1 (int8ParamsNew cls0 tW8 false false).2 = true ∧
     Int8Instance.getCB (int8ParamsNew (int8ParamsNew cls0 tW8 false false).1
        tW8b false true).1 (int8ParamsNew cls0 tW8 false false).2 = none ∧
     Int8Instance.getSCB (int8ParamsNew (int8ParamsNew cls0 tW8 false false).1
        tW8b false true).1 (int8ParamsNew cls0 tW8 false false).2 = none) ∧
    (Int8Instance.getCB (int8ParamsNew (int8ParamsNew cls0 tW8 false false).1
        tW8b false true).1 (int8ParamsCuda dqC (int8ParamsNew cls0 tW8 false false).1
        (int8ParamsNew cls0 tW8 false false).2)
       = some (dqC (((int8ParamsNew cls0 tW8 false false).2.data.contiguous.half).toDevice
           .cuda)).CB ∧
     Int8Instance.getSCB (int8ParamsNew (int8ParamsNew cls0 tW8 false false).1
        tW8b false true).1 (int8ParamsCuda dqC (int8ParamsNew cls0 tW8 false false).1
        (int8ParamsNew cls0 tW8 false false).2)
       = some (dqC (((int8ParamsNew cls0 tW8 false false).2.data.contiguous.half).toDevice
           .cuda)).SCB ∧
     Int8Instance.getHasFp16 (int8ParamsNew (int8ParamsNew cls0 tW8 false false).1
        tW8b false true).1 (int8ParamsCuda dqC (int8ParamsNew cls0 tW8 false false).1
        (int8ParamsNew cls0 tW8 false false).2) = true) :=
  c10_class_attribute_aliasing cls0 tW8 tW8b false false false true dqC rfl

/-!  Claim C2.  -/

/-- The `SCB` loop is the identity on a list with no matching key (helper). -/
theorem scbLoadLoop_no_match (sd : List (String × Tensor)) (pfx : String)
    (w : Int8Params) (keys : List String)
    (hall : ∀ k ∈ keys, ¬ k.drop pfx.length = "SCB") :
    ∀ i, Linear8bitLt.scbLoadLoop sd pfx w keys i = .ok (w, keys) := by
  have main : ∀ n i, keys.length - i ≤ n →
      Linear8bitLt.scbLoadLoop sd pfx w keys i = .ok (w, keys) := by
    intro n
    induction n with
    | zero =>
        intro i hi
        rw [Linear8bitLt.scbLoadLoop]
        have hni : ¬ i < keys.length := by omega
        simp [hni]
    | succ n ih =>
        intro i hi
        rw [Linear8bitLt.scbLoadLoop]
        by_cases hlt : i < keys.length
        · have hk := hall (keys.get ⟨i, hlt⟩) (List.get_mem keys i hlt)
          simp only [dif_pos hlt, if_neg hk]
          exact ih (i + 1) (by omega)
        · simp [hlt]
  intro i
  exact main (keys.length - i) i le_rfl

/-- Behaviour of the `SCB` loop on an unexpected-keys list containing
exactly one matching side-channel key (helper for C2): reject when the
weight's `SCB` slot is unallocated; otherwise copy in place and remove the
key. -/
theorem scbLoadLoop_single (sd : List (String × Tensor)) (pfx key : String) (ip : Tensor)
    (hP : key.drop pfx.length = "SCB") (hsd : sd.lookup key = some ip) :
    ∀ (n : Nat) (keys : List String) (i : Nat) (w : Int8Params),
      keys.length - i ≤ n →
      keys.filter (fun k => decide (k.drop pfx.length = "SCB")) = [key] →
      (∀ j (hj : j < keys.length), j < i →
         ¬ (keys.get ⟨j, hj⟩).drop pfx.length = "SCB") →
      (w.SCB = none →
         Linear8bitLt.scbLoadLoop sd pfx w keys i = .error Linear8bitLt.loadErrMsg) ∧
      (∀ scb, w.SCB = some scb →
         Linear8bitLt.scbLoadLoop sd pfx w keys i =
           .ok ({ w with SCB := some (scb.copy_ ip) }, keys.erase key)) := by
  intro n
  induction n with
  | zero =>
      intro keys i w hfuel hfilter hbefore
      exfalso
      have hkey_mem : key ∈ keys := by
        have hmem : key ∈ keys.filter (fun k => decide (k.drop pfx.length = "SCB")) := by
          rw [hfilter]
          exact List.mem_singleton.mpr rfl
        exact (List.mem_filter.mp hmem).1
      obtain ⟨⟨j, hj⟩, hjk⟩ := List.get_of_mem hkey_mem
      have hnm : ¬ (keys.get ⟨j, hj⟩).drop pfx.length = "SCB" := hbefore j hj (by omega)
      rw [hjk] at hnm
      exact hnm hP
  | succ n ih =>
      intro keys i w hfuel hfilter hbefore
      by_cases hlt : i < keys.length
      · by_cases hmatch : (keys.get ⟨i, hlt⟩).drop pfx.length = "SCB"
        · have hki_key : keys.get ⟨i, hlt⟩ = key := by
            have hmem : keys.get ⟨i, hlt⟩ ∈
                keys.filter (fun k => decide (k.drop pfx.length = "SCB")) :=
              List.mem_filter.mpr ⟨List.get_mem keys i hlt, decide_eq_true hmatch⟩
            rw [hfilter] at hmem
            exact List.mem_singleton.mp hmem
          have herased : ∀ k ∈ keys.erase key, ¬ k.drop pfx.length = "SCB" := by
            have hfe := filter_erase_singleton keys key (decide_eq_true hP) hfilter
            intro k hk hkP
            have hkmem : k ∈ (keys.erase key).filter
                (fun k => decide (k.drop pfx.length = "SCB")) :=
              List.mem_filter.mpr ⟨hk, decide_eq_true hkP⟩
            rw [hfe] at hkmem
            exact absurd hkmem (List.not_mem_nil k)
          constructor
          · intro hw
            rw [Linear8bitLt.scbLoadLoop]
            simp only [dif_pos hlt, hki_key]
            rw [if_pos hP]
            simp only [hw]
          · intro scb hw
            rw [Linear8bitLt.scbLoadLoop]
            simp only [dif_pos hlt, hki_key]
            rw [if_pos hP]
            simp only [hw, hsd]
            exact scbLoadLoop_no_match sd pfx _ (keys.erase key) herased (i + 1)
        · have step : Linear8bitLt.scbLoadLoop sd pfx w keys i =
              Linear8bitLt.scbLoadLoop sd pfx w keys (i + 1) := by
            rw [Linear8bitLt.scbLoadLoop]
            simp only [dif_pos hlt, if_neg hmatch]
          rw [step]
          apply ih keys (i + 1) w (by omega) hfilter
          intro j hj hji
          rcases Nat.lt_succ_iff_lt_or_eq.mp hji with h | h
          · exact hbefore j hj h
          · subst h
            exact hmatch
      · exfalso
        have hkey_mem : key ∈ keys := by
          have hmem : key ∈ keys.filter (fun k => decide (k.drop pfx.length = "SCB")) := by
            rw [hfilter]
            exact List.mem_singleton.mpr rfl
          exact (List.mem_filter.mp hmem).1
        obtain ⟨⟨j, hj⟩, hjk⟩ := List.get_of_mem hkey_mem
        have hnm : ¬ (keys.get ⟨j, hj⟩).drop pfx.length = "SCB" :=
          hbefore j hj (by omega)
        rw [hjk] at hnm
        exact hnm hP

/-- C2: for a checkpoint load whose generic phase leaves an unexpected
side-channel `SCB` key (present in the state dict): if the layer weight's
statistics slot is unallocated (`weight.SCB` is `None`), the load fails with
the quantized-checkpoint-into-unquantized-layer error; otherwise the
statistics values are copied in place into the existing slot — same
allocation identity, values taken from the checkpoint — and the `SCB` key
is removed from the unexpected-keys list. -/
theorem c2_load_rejects_or_copies_in_place
    (superLoad : Linear8bitLt → List (String × Tensor) → String → List String →
       Linear8bitLt × List String)
    (l : Linear8bitLt) (sd : List (String × Tensor)) (pfx : String) (uk : List String)
    (l1 : Linear8bitLt) (uk1 : List String) (key : String) (ip : Tensor)
    (hsl : superLoad l sd pfx uk = (l1, uk1))
    (hP : key.drop pfx.length = "SCB")
    (hfilter : uk1.filter (fun k => decide (k.drop pfx.length = "SCB")) = [key])
    (hsd : sd.lookup key = some ip) :
    (l1.weight.SCB = none →
       Linear8bitLt.loadFromStateDict superLoad l sd pfx uk =
         .error Linear8bitLt.loadErrMsg) ∧
    (∀ scb, l1.weight.SCB = some scb →
       Linear8bitLt.loadFromStateDict superLoad l sd pfx uk =
         .ok ({ l1 with weight := { l1.weight with SCB := some (scb.copy_ ip) } },
              uk1.erase key) ∧
       (scb.copy_ ip).id = scb.id ∧ (scb.copy_ ip).device = scb.device ∧
       (scb.copy_ ip).values = ip.values) := by
  have hmain := scbLoadLoop_single sd pfx key ip hP hsd uk1.length uk1 0 l1.weight
    (by omega) hfilter (fun j hj hji => absurd hji (Nat.not_lt_zero j))
  constructor
  · intro hw
    simp only [Linear8bitLt.loadFromStateDict, hsl]
    rw [hmain.1 hw]
  · intro scb hw
    refine ⟨?_, rfl, rfl, rfl⟩
    simp only [Linear8bitLt.loadFromStateDict, hsl]
    rw [hmain.2 scb hw]

/-- Witness for C2 (success path) at the concrete quantized layer
`l8ForLoad` and checkpoint `sdC`, plus the reject path at the fresh layer
`l8Fresh`. -/
theorem c2_witness :
    Linear8bitLt.loadFromStateDict superLoadC l8ForLoad sdC "p." [] =
      .ok ({ l8ForLoad with weight := { l8ForLoad.weight with
              SCB := some (Tensor.copy_ scbSlot scbNew) } }, []) ∧
    Linear8bitLt.loadFromStateDict superLoadC l8Fresh sdC "p." [] =
      .error Linear8bitLt.loadErrMsg := by
  constructor
  · have h := (c2_load_rejects_or_copies_in_place superLoadC l8ForLoad sdC "p." []
      l8ForLoad ["p.SCB"] "p.SCB" scbNew rfl (by decide) (by decide) rfl).2 scbSlot rfl
    exact h.1.trans (by rfl)
  · exact (c2_load_rejects_or_copies_in_place superLoadC l8Fresh sdC "p." []
      l8Fresh ["p.SCB"] "p.SCB" scbNew rfl (by decide) (by decide) rfl).1 rfl

end Bnb
